import Mathlib

/-!
# GhumaggerSnap — verification of the specification against the code

Shallow embedding of the GhumaggerSnap media-sharing application.  The
frontend (React, `frontend/src`) is embedded from its source; the FastAPI
backend (`backend/main.py`) is not part of the available sources, so the
backend operations (path resolution, range streaming, thumbnail
coalescing) are modelled from the specification, as marked on each
definition.

Conventions: bytes are `ℕ` (values < 256), byte strings are `List ℕ`,
JavaScript strings are `String`, nullable values are `Option`.
-/

/- ═══════════════ fmtSize (frontend/src/components/FileCard.jsx) ═══════════════ -/

/-- The unit array of fmtSize: `const s = ['B', 'KB', 'MB', 'GB', 'TB']`. -/
def sizeUnits : List String := ["B", "KB", "MB", "GB", "TB"]

/-- Exact floor of the base-1024 logarithm for `b < 1024 ^ 6`, written as an
if-chain so that it evaluates by kernel reduction. -/
def ilog1024 (b : ℕ) : ℕ :=
  if b < 1024 then 0
  else if b < 1024 ^ 2 then 1
  else if b < 1024 ^ 3 then 2
  else if b < 1024 ^ 4 then 3
  else if b < 1024 ^ 5 then 4
  else 5

/-- The value of `Math.floor(Math.log(b) / Math.log(1024))` computed in IEEE
binary64 arithmetic, for integer inputs `1 ≤ b ≤ 1024 ^ 5`.  It agrees with
the exact floor everywhere in that range except at
`b ∈ {1024 ^ 5 - 3, 1024 ^ 5 - 2, 1024 ^ 5 - 1}`: there the real ratio is
within half an ulp of `5`, and the computed quotient is exactly `5.0`, so the
floor overshoots to `5`.  (For every other integer in the range the distance
from the real ratio to the nearest integer is at least `1e-13`, far above
the `≈ 3e-16` round-off of the two logarithms and the division; the
boundary values were evaluated against both the fdlibm `log` used by the
JavaScript engines and the glibc one, which agree.) -/
def jsLog1024Floor (b : ℕ) : ℕ :=
  if 1024 ^ 5 - 4 < b then 5 else ilog1024 b

/-- Rendering of `parseFloat((b / Math.pow(1024, i)).toFixed(1))` for an
integer `b < 2 ^ 53`: the quotient `b / 1024 ^ i` is exactly representable
in binary64, `toFixed(1)` rounds it half-up to one decimal digit, and
`parseFloat` drops a trailing `.0`.  `t` below is `10 · q` rounded half-up
to an integer. -/
def oneDecimalString (b : ℕ) (i : ℕ) : String :=
  let p := 1024 ^ i
  let t := (20 * b + p) / (2 * p)
  if t % 10 = 0 then toString (t / 10)
  else toString (t / 10) ++ "." ++ toString (t % 10)

/-- Core of `fmtSize` from FileCard.jsx for a present numeric argument.
`s[i]` for `i = 5` is `undefined` in JavaScript and the template literal
renders it as the string `"undefined"`, hence the `getD`. -/
def fmtSizeCore (b : ℕ) : String :=
  if b = 0 then "0 B"
  else
    oneDecimalString b (jsLog1024Floor b) ++ " " ++
      (sizeUnits.getD (jsLog1024Floor b) "undefined")

/-- `fmtSize` from FileCard.jsx; `none` stands for `null`/`undefined`, which
are falsy like `0` and also produce `"0 B"`. -/
def fmtSize : Option ℕ → String
  | none => "0 B"
  | some b => fmtSizeCore b

/-- The output format asserted by the claim for `1 ≤ b < 1024 ^ 5`: `b`
divided by `1024 ^ ⌊log_1024 b⌋`, rounded to at most one decimal place with
trailing zeros stripped, followed by a space and the unit at that index in
`['B', 'KB', 'MB', 'GB', 'TB']`. -/
def fmtSizeClaimed (b : ℕ) : String :=
  oneDecimalString b (Nat.log 1024 b) ++ " " ++
    (sizeUnits.getD (Nat.log 1024 b) "undefined")

/- ═══════════════ API client (frontend/src/api.js) ═══════════════ -/

/-- Hexadecimal digit (uppercase) of a value `< 16`, as produced by
percent-encoding. -/
def hexDigit (n : ℕ) : Char :=
  if n < 10 then Char.ofNat (48 + n) else Char.ofNat (55 + n)

/-- UTF-8 encoding of one character, as a list of byte values. -/
def utf8Bytes (c : Char) : List ℕ :=
  let n := c.toNat
  if n < 128 then [n]
  else if n < 2048 then [192 + n / 64, 128 + n % 64]
  else if n < 65536 then [224 + n / 4096, 128 + (n / 64) % 64, 128 + n % 64]
  else [240 + n / 262144, 128 + (n / 4096) % 64, 128 + (n / 64) % 64, 128 + n % 64]

/-- Characters `encodeURIComponent` leaves unescaped: ASCII alphanumerics
and `- _ . ! ~ * ' ( )` (the apostrophe is written by code point). -/
def uriUnescaped (c : Char) : Bool :=
  c.isAlphanum && c.toNat < 128 ||
    (['-', '_', '.', '!', '~', '*', Char.ofNat 39, '(', ')'].contains c)

/-- Percent-encoding of one character, UTF-8 byte by byte. -/
def pctEncodeChar (c : Char) : String :=
  if uriUnescaped c then String.singleton c
  else String.join ((utf8Bytes c).map (fun b =>
    "%" ++ String.singleton (hexDigit (b / 16)) ++ String.singleton (hexDigit (b % 16))))

/-- The JavaScript builtin `encodeURIComponent`, modelled character-wise. -/
def encodeURIComponent (s : String) : String :=
  String.join (s.data.map pctEncodeChar)

/-- `api.previewUrl(filePath)` from api.js: the bearer token is embedded as
the `token` query parameter so that `<img>`/`<video>` elements can use the
URL. -/
def previewUrl (tok filePath : String) : String :=
  "/api/files/preview?path=" ++ encodeURIComponent filePath ++ "&token=" ++ tok

/-- `api.previewCompatUrl(filePath)` from api.js: the transcoded fallback
stream (`compat=1`). -/
def previewCompatUrl (tok filePath : String) : String :=
  "/api/files/preview?path=" ++ encodeURIComponent filePath ++ "&compat=1&token=" ++ tok

/-- `api.thumbnailUrl(filePath)` from api.js. -/
def thumbnailUrl (tok filePath : String) : String :=
  "/api/files/thumbnail?path=" ++ encodeURIComponent filePath ++ "&token=" ++ tok

/-- `api.downloadUrl(filePath)` from api.js. -/
def downloadUrl (tok filePath : String) : String :=
  "/api/files/download?path=" ++ encodeURIComponent filePath ++ "&token=" ++ tok

/-- An outgoing HTTP request as the client assembles it. -/
structure ClientRequest where
  method : String
  url : String
  headers : List (String × String)
  body : String
deriving DecidableEq

/-- `api.bulkDownload(paths)` from api.js: a plain `fetch`, not `req`;
the token travels only in the `Authorization` header and the URL carries
no query string. -/
def bulkDownloadRequest (tok : String) (bodyJson : String) : ClientRequest :=
  ⟨"POST", "/api/files/bulk-download",
    [("Authorization", "Bearer " ++ tok), ("Content-Type", "application/json")],
    bodyJson⟩

/-- Modelled from the spec (backend `main.py` is not among the sources):
authentication on the media endpoints (preview, thumbnail, download,
archive).  The credential of the `Authorization: Bearer` header — if the
header is present — or else the `token` query parameter is checked by the
token validator. -/
def mediaAuth (headerTok : Option String) (queryTok : Option String)
    (valid : String → Bool) : Bool :=
  match headerTok with
  | some t => valid t
  | none =>
    match queryTok with
    | some t => valid t
    | none => false

/- ═══════════════ VideoPlayer (frontend/src/components/FilePreview.jsx) ═══════════════ -/

/-- The `status` state of `VideoPlayer`. -/
inductive VStatus
  | loading | playing | transcoding | error
deriving DecidableEq

/-- Response of `GET /files/video-info` as consumed by `handleError`. -/
structure VideoInfo where
  codec : String
  needs_transcode : Bool
  ffmpeg_available : Bool
deriving DecidableEq

/-- The React state of one `VideoPlayer` instance (`status`, `bufferPct`,
`useCompat`, `errorMsg` are `useState`; `triedCompat` is a ref). -/
structure VPState where
  status : VStatus
  bufferPct : ℕ
  useCompat : Bool
  errorMsg : String
  triedCompat : Bool
deriving DecidableEq

/-- Events delivered to the player: the `<video>` element events and the
error callback.  `errorEv p` carries the environment's answer to the
video-info probe that `handleError` would issue — `none` when that fetch
throws. -/
inductive VEvent
  | canplay | playing | loadeddata | waiting
  | progress (pct : ℕ)
  | errorEv (probe : Option VideoInfo)
deriving DecidableEq

/-- Network requests the player can issue while handling an event. -/
inductive VReq
  | probeVideoInfo (path : String)
deriving DecidableEq

/-- Initial player state: `'loading'`, buffer 0, native (non-compat) source,
no error, compat not yet tried. -/
def vpInit : VPState := ⟨VStatus.loading, 0, false, "", false⟩

/-- The `src` of the `<video>` element: the compat URL only when
`useCompat` is set, otherwise the plain preview URL. -/
def vpSrc (tok path : String) (s : VPState) : String :=
  if s.useCompat then previewCompatUrl tok path else previewUrl tok path

/-- One step of the `VideoPlayer` event handling, returning the next state
and the list of network requests issued during the step.

`canplay`/`playing`/`loadeddata` set `'playing'`; `waiting` sets
`'loading'` unless transcoding; `progress` updates the buffer percentage.
`errorEv` is `handleError`: if compat was already tried it goes straight to
`'error'` — before issuing any probe; otherwise it marks compat as tried,
probes `/files/video-info`, and either switches to the compat source
(`useCompat := true`, status `'transcoding'`), or fails with a message
naming the codec when a transcode is needed but ffmpeg is unavailable, or —
when the probe reports no transcode needed, or the probe itself failed —
tries the compat source anyway. -/
def vpStep (path : String) (s : VPState) : VEvent → VPState × List VReq
  | VEvent.canplay => (⟨VStatus.playing, s.bufferPct, s.useCompat, s.errorMsg, s.triedCompat⟩, [])
  | VEvent.playing => (⟨VStatus.playing, s.bufferPct, s.useCompat, s.errorMsg, s.triedCompat⟩, [])
  | VEvent.loadeddata => (⟨VStatus.playing, s.bufferPct, s.useCompat, s.errorMsg, s.triedCompat⟩, [])
  | VEvent.waiting =>
    (if s.status = VStatus.transcoding then s
     else ⟨VStatus.loading, s.bufferPct, s.useCompat, s.errorMsg, s.triedCompat⟩, [])
  | VEvent.progress pct => (⟨s.status, pct, s.useCompat, s.errorMsg, s.triedCompat⟩, [])
  | VEvent.errorEv probe =>
    if s.triedCompat then
      (⟨VStatus.error, s.bufferPct, s.useCompat,
        "Video could not be played. Try downloading it instead.", s.triedCompat⟩, [])
    else
      match probe with
      | some info =>
        if info.needs_transcode && info.ffmpeg_available then
          (⟨VStatus.transcoding, 0, true, s.errorMsg, true⟩, [VReq.probeVideoInfo path])
        else if info.needs_transcode && !info.ffmpeg_available then
          (⟨VStatus.error, s.bufferPct, s.useCompat,
            "Codec \"" ++ info.codec ++ "\" not supported by browser. Install ffmpeg to enable transcoding.",
            true⟩, [VReq.probeVideoInfo path])
        else
          (⟨VStatus.transcoding, 0, true, s.errorMsg, true⟩, [VReq.probeVideoInfo path])
      | none => (⟨VStatus.transcoding, 0, true, s.errorMsg, true⟩, [VReq.probeVideoInfo path])

/- ═══════════════ FileCard / FileRow (frontend/src/components/FileCard.jsx) ═══════════════ -/

/-- A `FileEntry` as the listing returns it to the frontend. -/
structure FileEntry where
  name : String
  path : String
  file_type : String
  size : Option ℕ
  modified_at : String
deriving DecidableEq

/-- A `FolderEntry` as the listing returns it to the frontend. -/
structure FolderEntry where
  name : String
  path : String
  item_count : ℕ
  modified_at : String
deriving DecidableEq

/-- What the thumbnail area of a card or row displays. -/
inductive ThumbRender
  | thumbImg (src : String)
  | playIcon
  | typeIconOf (t : String)
  | fileIconGeneric
deriving DecidableEq

/-- Thumbnail area of `FileCard` (grid): `showThumb = isImg && !thumbErr`
selects the `<img>`; a video shows the play icon; anything else shows
`typeIcon[file.file_type] || typeIcon.other`. -/
def cardThumbArea (tok : String) (f : FileEntry) (thumbErr : Bool) : ThumbRender :=
  if f.file_type = "image" && !thumbErr then ThumbRender.thumbImg (thumbnailUrl tok f.path)
  else if f.file_type = "video" then ThumbRender.playIcon
  else ThumbRender.typeIconOf
    (if f.file_type = "image" || f.file_type = "video" || f.file_type = "other"
     then f.file_type else "other")

/-- Thumbnail area of `FileRow` (list): image with no error shows the
`<img>`; a video shows the play icon; anything else the generic file
icon. -/
def rowThumbArea (tok : String) (f : FileEntry) (thumbErr : Bool) : ThumbRender :=
  if f.file_type = "image" && !thumbErr then ThumbRender.thumbImg (thumbnailUrl tok f.path)
  else if f.file_type = "video" then ThumbRender.playIcon
  else ThumbRender.fileIconGeneric

/-- The `onError` handler of the thumbnail `<img>`: it only sets this
card's `thumbErr` state. -/
def onThumbError (_ : Unit) : Bool := true

/-- The thumbnail areas of a grid of file cards, each card paired with its
own `thumbErr` state. -/
def gridThumbs (tok : String) (files : List FileEntry) (errs : List Bool) : List ThumbRender :=
  List.zipWith (cardThumbArea tok) files errs

/- ═══════════════ Dashboard rendering (frontend/src/components/Dashboard.jsx) ═══════════════ -/

/-- One rendered entry of the dashboard content area. -/
inductive RenderedEntry
  | folderE (f : FolderEntry)
  | fileE (f : FileEntry)
deriving DecidableEq

/-- The `GET /files` response shape consumed by `loadFiles`: folders and
files as separate collections. -/
structure FilesResponse where
  folders : List FolderEntry
  files : List FileEntry
deriving DecidableEq

/-- The order in which the dashboard renders a listing, in both the grid
and the list view: all folder cards (in response order), then all file
cards (in response order). -/
def dashboardEntries (resp : FilesResponse) : List RenderedEntry :=
  resp.folders.map RenderedEntry.folderE ++ resp.files.map RenderedEntry.fileE

/- ═══════════════ req / login (frontend/src/api.js) ═══════════════ -/

/-- The two localStorage slots (`fs_token`, `fs_user`). -/
structure AuthStore where
  token : Option String
  user : Option String
deriving DecidableEq

/-- Page-level effects the wrapper can trigger. -/
inductive BrowserEffect
  | reload
deriving DecidableEq

/-- A server response as seen by `fetch`: status plus the error detail the
body would parse to. -/
structure HttpResp where
  status : ℕ
  detail : String
deriving DecidableEq

/-- `res.ok`: status in the 200–299 range. -/
def respOk (r : HttpResp) : Bool := 200 ≤ r.status && r.status < 300

/-- Errors thrown by `req`. -/
inductive ReqError
  | unauthorized
  | requestFailed (detail : String)
deriving DecidableEq

/-- The generic fetch wrapper `req`: on a 401 it clears both localStorage
slots, reloads the page and throws `Unauthorized`; on any other non-2xx it
throws the parsed detail; otherwise it returns the response.  The returned
store and effect list describe the state of the world at the moment the
result (or the thrown error) reaches the caller. -/
def reqModel (st : AuthStore) (resp : HttpResp) :
    AuthStore × List BrowserEffect × Except ReqError HttpResp :=
  if resp.status = 401 then (⟨none, none⟩, [BrowserEffect.reload], Except.error ReqError.unauthorized)
  else if respOk resp then (st, [], Except.ok resp)
  else (st, [], Except.error (ReqError.requestFailed resp.detail))

/-- `api.login`: it calls `req` and only on success stores the returned
token and user.  `cred` is the `(access_token, user)` pair the success body
parses to. -/
def loginModel (st : AuthStore) (resp : HttpResp) (cred : String × String) :
    AuthStore × List BrowserEffect × Except ReqError (String × String) :=
  match reqModel st resp with
  | (st', effs, Except.error e) => (st', effs, Except.error e)
  | (_, effs, Except.ok _) => (⟨some cred.1, some cred.2⟩, effs, Except.ok cred)

/- ═══════════════ Backend: virtual-path resolution (modelled from the spec) ═══════════════ -/

/-- Splitting a POSIX-style virtual path into its non-empty segments
(character-level, so that it evaluates by kernel reduction). -/
def segsOfChars (cur : List Char) : List Char → List String
  | [] => if cur.isEmpty then [] else [String.mk cur.reverse]
  | c :: rest =>
    if c = '/' then
      if cur.isEmpty then segsOfChars [] rest
      else String.mk cur.reverse :: segsOfChars [] rest
    else segsOfChars (c :: cur) rest

/-- The segments of a client-supplied virtual path. -/
def virtualSegments (vp : String) : List String := segsOfChars [] vp.data

/-- An absolute filesystem path, as a list of segments from the real
filesystem root. -/
abbrev AbsPath := List String

/-- Modelled from the spec (backend `main.py` is not among the sources):
the filesystem the server sees.  `root` is MediaRoot, `symlinks` maps a
symlink location to its absolute target, `dirs` lists the existing
directories, `fileData` maps file paths to contents with sizes. -/
structure MediaFS where
  root : AbsPath
  symlinks : List (AbsPath × AbsPath)
  dirs : List AbsPath
  fileData : List (AbsPath × List ℕ)
deriving DecidableEq

/-- Modelled from the spec: canonicalization of a path as `realpath` does
it — resolve `.` and `..` segment by segment and follow symlinks, the fuel
bounding symlink chains; `none` means resolution failed (a symlink
cycle). -/
def canonFuel (links : List (AbsPath × AbsPath)) :
    ℕ → AbsPath → List String → Option AbsPath
  | 0, _, _ => none
  | _ + 1, acc, [] => some acc
  | fuel + 1, acc, seg :: rest =>
    if seg = "." then canonFuel links fuel acc rest
    else if seg = ".." then canonFuel links fuel acc.dropLast rest
    else
      match links.lookup (acc ++ [seg]) with
      | some target => canonFuel links fuel [] (target ++ rest)
      | none => canonFuel links fuel (acc ++ [seg]) rest

/-- Modelled from the spec: canonicalize an absolute path over a given
filesystem. -/
def canonicalize (fs : MediaFS) (p : AbsPath) : Option AbsPath :=
  canonFuel fs.symlinks (1000 + p.length) [] p

/-- Error payload sent to the client on a failed request; the message is
one of two fixed constants, never a raw filesystem path. -/
inductive PathErrCode
  | forbidden | notFound
deriving DecidableEq

/-- An error response of the path-consuming endpoints. -/
structure PathErr where
  code : PathErrCode
  msg : String
deriving DecidableEq

/-- The constant `Forbidden` response of a containment violation. -/
def forbiddenResp : PathErr := ⟨PathErrCode.forbidden, "Access denied"⟩

/-- The constant `NotFound` response. -/
def notFoundResp : PathErr := ⟨PathErrCode.notFound, "Not found"⟩

/-- Modelled from the spec: the path-resolution algorithm shared by every
path-consuming endpoint — join MediaRoot with the client-supplied virtual
path, canonicalize, and require the canonical path to still be a
descendant of MediaRoot. -/
def resolvePath (fs : MediaFS) (vp : String) : Except PathErr AbsPath :=
  match canonicalize fs (fs.root ++ virtualSegments vp) with
  | none => Except.error notFoundResp
  | some c => if fs.root.isPrefixOf c then Except.ok c else Except.error forbiddenResp

/-- A response of one of the media endpoints. -/
inductive MediaResp
  | listing (folders : List AbsPath) (files : List AbsPath)
  | statsR (totalFiles : ℕ) (totalSize : ℕ)
  | content (bytes : List ℕ)
  | archive (entries : List (AbsPath × List ℕ))
  | err (e : PathErr)
deriving DecidableEq

/-- Immediate subdirectories of a canonical directory path. -/
def childDirs (fs : MediaFS) (c : AbsPath) : List AbsPath :=
  fs.dirs.filter (fun d => d.length = c.length + 1 && c.isPrefixOf d)

/-- Immediate files of a canonical directory path, with their contents. -/
def childFiles (fs : MediaFS) (c : AbsPath) : List (AbsPath × List ℕ) :=
  fs.fileData.filter (fun f => f.1.length = c.length + 1 && c.isPrefixOf f.1)

/-- Modelled from the spec: `GET /files` — resolve, then list only the one
target directory. -/
def listEndpoint (fs : MediaFS) (vp : String) : MediaResp :=
  match resolvePath fs vp with
  | Except.error e => MediaResp.err e
  | Except.ok c =>
    if fs.dirs.contains c then
      MediaResp.listing (childDirs fs c) ((childFiles fs c).map Prod.fst)
    else MediaResp.err notFoundResp

/-- Modelled from the spec: `GET /stats` — per-directory aggregates. -/
def statsEndpoint (fs : MediaFS) (vp : String) : MediaResp :=
  match resolvePath fs vp with
  | Except.error e => MediaResp.err e
  | Except.ok c =>
    if fs.dirs.contains c then
      MediaResp.statsR (childFiles fs c).length
        (((childFiles fs c).map (fun f => f.2.length)).sum)
    else MediaResp.err notFoundResp

/-- Modelled from the spec: reading a resolved file's bytes. -/
def fileBytes (fs : MediaFS) (c : AbsPath) : Option (List ℕ) :=
  fs.fileData.lookup c

/-- Modelled from the spec: `GET /files/download` (attachment disposition
not modelled) — resolve, then stream the whole file. -/
def downloadEndpoint (fs : MediaFS) (vp : String) : MediaResp :=
  match resolvePath fs vp with
  | Except.error e => MediaResp.err e
  | Except.ok c =>
    match fileBytes fs c with
    | some bs => MediaResp.content bs
    | none => MediaResp.err notFoundResp

/-- Modelled from the spec: `GET /files/thumbnail`, parameterized by the
thumbnail generator (decode / resize / re-encode is not modelled). -/
def thumbnailEndpoint (gen : List ℕ → List ℕ) (fs : MediaFS) (vp : String) : MediaResp :=
  match resolvePath fs vp with
  | Except.error e => MediaResp.err e
  | Except.ok c =>
    match fileBytes fs c with
    | some bs => MediaResp.content (gen bs)
    | none => MediaResp.err notFoundResp

/-- Modelled from the spec: `POST /files/bulk-download` — every path must
resolve within MediaRoot before inclusion; a bad path fails the whole
batch (the spec leaves skip-vs-fail open; failing is the stricter
containment-respecting choice). -/
def archiveEndpoint (fs : MediaFS) (vps : List String) : MediaResp :=
  match vps.mapM (resolvePath fs) with
  | Except.error e => MediaResp.err e
  | Except.ok cs =>
    MediaResp.archive (cs.map (fun c => (c, (fileBytes fs c).getD [])))

/- ═══════════════ Backend: range streaming (modelled from the spec) ═══════════════ -/

/-- Digits-to-number parse; `none` on an empty or non-digit list. -/
def natOfDigits (l : List Char) : Option ℕ :=
  if l.isEmpty then none
  else
    l.foldl (fun acc c =>
      match acc with
      | none => none
      | some n => if c.isDigit then some (n * 10 + (c.toNat - 48)) else none)
      (some 0)

/-- Modelled from the spec: parse of an HTTP `Range` header value of the
form `bytes=start-` or `bytes=start-end`. -/
def parseRangeHeader (s : String) : Option (ℕ × Option ℕ) :=
  match s.data with
  | 'b' :: 'y' :: 't' :: 'e' :: 's' :: '=' :: rest =>
    match rest.dropWhile (fun c => c ≠ '-') with
    | '-' :: tail =>
      match natOfDigits (rest.takeWhile (fun c => c ≠ '-')) with
      | some start =>
        if tail.isEmpty then some (start, none)
        else
          match natOfDigits tail with
          | some en => some (start, some en)
          | none => none
      | none => none
    | _ => none
  | _ => none

/-- An HTTP response of the preview streaming endpoint.  `contentRange` is
the `(first, last, total)` triple of a `Content-Range: bytes
first-last/total` header. -/
structure StreamResp where
  status : ℕ
  contentLength : Option ℕ
  contentRange : Option (ℕ × ℕ × ℕ)
  body : List ℕ
deriving DecidableEq

/-- Modelled from the spec: `streamPreview` range semantics — a
`Range: bytes=start-end` request yields `206 Partial Content` with a
`Content-Range` header and the requested span clamped to the file size; no
(or an unparseable) `Range` header yields the full file with
`Content-Length`; a start at or past the end of the file is not
satisfiable. -/
def streamPreview (content : List ℕ) (rangeHdr : Option String) : StreamResp :=
  match rangeHdr with
  | none => ⟨200, some content.length, none, content⟩
  | some h =>
    match parseRangeHeader h with
    | none => ⟨200, some content.length, none, content⟩
    | some (start, en?) =>
      let size := content.length
      if size ≤ start then ⟨416, none, some (0, 0, size), []⟩
      else
        let en := min (en?.getD (size - 1)) (size - 1)
        ⟨206, some (en + 1 - start), some (start, en, size),
          (content.drop start).take (en + 1 - start)⟩

/- ═══════════════ Backend: thumbnail coalescing (modelled from the spec) ═══════════════ -/

/-- Observable events of the thumbnail cache: a generation starting for a
source key, and a requester receiving a result for a key. -/
inductive CoEv
  | genStart (k : ℕ)
  | recv (r : ℕ) (k : ℕ) (res : ℕ)
deriving DecidableEq

/-- Actions the environment can interleave: a requester `r` asking for the
thumbnail of source key `k`, and the single generation job for key `k`
finishing with result `res` (success or failure alike — `res` is whatever
the job produced). -/
inductive CoAct
  | request (r : ℕ) (k : ℕ)
  | complete (k : ℕ) (res : ℕ)
deriving DecidableEq

/-- State of the thumbnail cache: the disk-backed cache, and the in-flight
generation jobs with their waiter lists. -/
structure CoState where
  cache : ℕ → Option ℕ
  inflight : ℕ → Option (List ℕ)

/-- Pointwise update of a key-indexed table. -/
def updTable {α : Type} (f : ℕ → Option α) (k : ℕ) (v : Option α) : ℕ → Option α :=
  fun k' => if k' = k then v else f k'

/-- Modelled from the spec: one atomic step of the coalescing thumbnail
cache.  A request is answered from the cache when possible; otherwise it
joins the waiter list of an in-flight generation for the same key, or — if
none exists — starts the one generation job.  A completing generation
caches its result and delivers it to every waiter. -/
def coStep (s : CoState) : CoAct → CoState × List CoEv
  | CoAct.request r k =>
    match s.cache k with
    | some res => (s, [CoEv.recv r k res])
    | none =>
      match s.inflight k with
      | some ws => (⟨s.cache, updTable s.inflight k (some (ws ++ [r]))⟩, [])
      | none => (⟨s.cache, updTable s.inflight k (some [r])⟩, [CoEv.genStart k])
  | CoAct.complete k res =>
    match s.inflight k with
    | some ws =>
      (⟨updTable s.cache k (some res), updTable s.inflight k none⟩,
        ws.map (fun r => CoEv.recv r k res))
    | none => (s, [])

/-- Run of the cache over a list of interleaved actions, collecting the
emitted events in order. -/
def coRun (s : CoState) : List CoAct → CoState × List CoEv
  | [] => (s, [])
  | a :: rest =>
    ((coRun (coStep s a).1 rest).1, (coStep s a).2 ++ (coRun (coStep s a).1 rest).2)

/-- The empty initial cache state. -/
def coInit : CoState := ⟨fun _ => none, fun _ => none⟩

/-- Number of generations started for key `k` in an event list. -/
def genCount (k : ℕ) (evs : List CoEv) : ℕ :=
  (evs.filter (fun e =>
    match e with
    | CoEv.genStart k' => k' == k
    | _ => false)).length

/-- Whether an action list contains a request for key `k`. -/
def hasRequestFor (k : ℕ) (acts : List CoAct) : Bool :=
  acts.any (fun a =>
    match a with
    | CoAct.request _ k' => k' == k
    | _ => false)

/-- Modelled from the spec: `GET /files/preview` — resolve with the shared
containment check, then stream the file with range semantics. -/
def previewEndpoint (fs : MediaFS) (vp : String) (rangeHdr : Option String) : MediaResp :=
  match resolvePath fs vp with
  | Except.error e => MediaResp.err e
  | Except.ok c =>
    match fileBytes fs c with
    | some bs => MediaResp.content (streamPreview bs rangeHdr).body
    | none => MediaResp.err notFoundResp

/-- Invariant of the coalescing cache, relating the state reached after a
prefix of the interleaving to the events emitted and the actions consumed
so far: received results always agree with the cache, a key is never both
cached and in flight, a generation has started exactly for the keys that
are cached or in flight, and those are exactly the keys that have been
requested. -/
def CoInv (s : CoState) (evs : List CoEv) (acts : List CoAct) : Prop :=
  (∀ k r res, CoEv.recv r k res ∈ evs → s.cache k = some res) ∧
  (∀ k, s.cache k = none ∨ s.inflight k = none) ∧
  (∀ k, genCount k evs = if (s.cache k).isSome || (s.inflight k).isSome then 1 else 0) ∧
  (∀ k, hasRequestFor k acts = ((s.cache k).isSome || (s.inflight k).isSome))

/-- A sample filesystem used to instantiate the path-containment theorem:
MediaRoot `/media` containing one image and one symlink pointing outside
the root. -/
def sampleFS : MediaFS :=
  ⟨["media"], [(["media", "link"], ["outside", "dir"])], [["media"]],
    [(["media", "a.jpg"], [1, 2, 3])]⟩

/- ═══════════════════════════════ Theorems ═══════════════════════════════ -/

/-- The if-chain computes the exact base-1024 logarithm floor. -/
theorem ilog1024_eq_log (b : ℕ) (hb : 1 ≤ b) (hub : b < 1024 ^ 6) :
    ilog1024 b = Nat.log 1024 b := by
  unfold ilog1024
  split_ifs with h1 h2 h3 h4 h5
  · exact (Nat.log_eq_of_pow_le_of_lt_pow (by simpa using hb) (by simpa using h1)).symm
  · exact (Nat.log_eq_of_pow_le_of_lt_pow (by simpa using Nat.le_of_not_lt h1)
      (by simpa using h2)).symm
  · exact (Nat.log_eq_of_pow_le_of_lt_pow (by simpa using Nat.le_of_not_lt h2)
      (by simpa using h3)).symm
  · exact (Nat.log_eq_of_pow_le_of_lt_pow (by simpa using Nat.le_of_not_lt h3)
      (by simpa using h4)).symm
  · exact (Nat.log_eq_of_pow_le_of_lt_pow (by simpa using Nat.le_of_not_lt h4)
      (by simpa using h5)).symm
  · exact (Nat.log_eq_of_pow_le_of_lt_pow (by simpa using Nat.le_of_not_lt h5)
      (by simpa using hub)).symm

/-- Claim C10, counterexample: at `b = 1024 ^ 5 - 1` — inside the claimed
range `1 ≤ b < 1024 ^ 5` — the binary64 `Math.log` quotient rounds to
exactly `5.0`, the unit array is indexed out of bounds, and `fmtSize`
returns `"1 undefined"` instead of the `"1024 TB"` the claimed formula
prescribes. -/
theorem fmtSize_claim_counterexample :
    1 ≤ 1125899906842623 ∧ (1125899906842623 : ℕ) < 1024 ^ 5 ∧
    fmtSize (some 1125899906842623) = "1 undefined" ∧
    fmtSizeClaimed 1125899906842623 = "1024 TB" ∧
    fmtSize (some 1125899906842623) ≠ fmtSizeClaimed 1125899906842623 := by
  have hlog : Nat.log 1024 1125899906842623 = 4 :=
    Nat.log_eq_of_pow_le_of_lt_pow (by norm_num) (by norm_num)
  have h1 : fmtSize (some 1125899906842623) = "1 undefined" := by decide
  have h2 : fmtSizeClaimed 1125899906842623 = "1024 TB" := by
    unfold fmtSizeClaimed
    rw [hlog]
    decide
  exact ⟨by norm_num, by norm_num, h1, h2, by rw [h1, h2]; decide⟩

/-- Claim C10 (amended): `fmtSize` returns `"0 B"` on `0`, `null` and
`undefined`, and for `1 ≤ b < 1024 ^ 5 - 3` it returns `b / 1024 ^
⌊log_1024 b⌋` rounded to at most one decimal place with trailing zeros
stripped, a space, and the unit at that index in `['B','KB','MB','GB','TB']`
(the top three values of the claimed range, `1024 ^ 5 - 3 ≤ b < 1024 ^ 5`,
instead produce `"1 undefined"`). -/
theorem fmtSize_formula (b : ℕ) (h1 : 1 ≤ b) (h2 : b < 1024 ^ 5 - 3) :
    fmtSize (some b) = fmtSizeClaimed b ∧ fmtSize (some 0) = "0 B" ∧ fmtSize none = "0 B" := by
  refine ⟨?_, rfl, rfl⟩
  have hpow5 : (1024 : ℕ) ^ 5 = 1125899906842624 := by norm_num
  have hb0 : ¬ b = 0 := by omega
  have hjs : jsLog1024Floor b = ilog1024 b := by
    unfold jsLog1024Floor
    rw [if_neg]
    rw [hpow5] at h2 ⊢
    omega
  show fmtSizeCore b = fmtSizeClaimed b
  unfold fmtSizeCore fmtSizeClaimed
  rw [if_neg hb0, hjs, ilog1024_eq_log b h1 (by rw [hpow5] at h2; norm_num; omega)]

/-- Witness for the amended C10 formula at `b = 1536`, together with the
concrete value `"1.5 KB"`. -/
theorem fmtSize_formula_witness :
    (1 ≤ 1536 ∧ 1536 < 1024 ^ 5 - 3 ∧ fmtSize (some 1536) = fmtSizeClaimed 1536) ∧
    fmtSize (some 1536) = "1.5 KB" :=
  ⟨⟨by norm_num, by norm_num, (fmtSize_formula 1536 (by norm_num) (by norm_num)).1⟩,
    by decide⟩

/-- Claim C4: the player starts on the plain preview URL with compat off;
no event other than a playback error can switch the source to the compat
URL or issue a video-info probe; and once compat has been tried, a further
error ends in the `'error'` state with the source unchanged and no further
probe or compat attempt. -/
theorem videoCompatLazy (tok path : String) :
    (vpInit.useCompat = false ∧ vpSrc tok path vpInit = previewUrl tok path) ∧
    (∀ (s : VPState) (e : VEvent), (∀ p, e ≠ VEvent.errorEv p) →
      (vpStep path s e).1.useCompat = s.useCompat ∧ (vpStep path s e).2 = []) ∧
    (∀ (s : VPState) (p : Option VideoInfo), s.triedCompat = true →
      vpStep path s (VEvent.errorEv p) =
        (⟨VStatus.error, s.bufferPct, s.useCompat,
          "Video could not be played. Try downloading it instead.", s.triedCompat⟩, [])) := by
  refine ⟨⟨rfl, rfl⟩, ?_, ?_⟩
  · intro s e he
    cases e with
    | canplay => exact ⟨rfl, rfl⟩
    | playing => exact ⟨rfl, rfl⟩
    | loadeddata => exact ⟨rfl, rfl⟩
    | waiting =>
      refine ⟨?_, rfl⟩
      simp only [vpStep]
      split <;> rfl
    | progress pct => exact ⟨rfl, rfl⟩
    | errorEv p => exact absurd rfl (he p)
  · intro s p htc
    simp [vpStep, htc]

/-- Witness for C4: a non-error event keeps compat off, and an error after a
tried compat ends in the error state. -/
theorem videoCompatLazy_witness :
    ((vpStep "v.mp4" vpInit VEvent.canplay).1.useCompat = vpInit.useCompat ∧
      (vpStep "v.mp4" vpInit VEvent.canplay).2 = []) ∧
    vpStep "v.mp4" ⟨VStatus.playing, 7, true, "", true⟩ (VEvent.errorEv none) =
      (⟨VStatus.error, 7, true, "Video could not be played. Try downloading it instead.",
        true⟩, []) :=
  ⟨(videoCompatLazy "t" "v.mp4").2.1 vpInit VEvent.canplay
      (fun _ h => VEvent.noConfusion h),
    (videoCompatLazy "t" "v.mp4").2.2 ⟨VStatus.playing, 7, true, "", true⟩ none rfl⟩

/-- Claim C5: on the first playback error, when the probe reports a needed
transcode but no available transcoder, the player enters the `'error'`
state with a message naming the detected codec, and the source is not
switched to the compat URL. -/
theorem videoTranscoderUnavailable (tok path : String) (s : VPState) (info : VideoInfo)
    (h1 : s.triedCompat = false) (h2 : info.needs_transcode = true)
    (h3 : info.ffmpeg_available = false) :
    vpStep path s (VEvent.errorEv (some info)) =
      (⟨VStatus.error, s.bufferPct, s.useCompat,
        "Codec \"" ++ info.codec ++ "\" not supported by browser. Install ffmpeg to enable transcoding.",
        true⟩, [VReq.probeVideoInfo path]) ∧
    (vpStep path s (VEvent.errorEv (some info))).1.useCompat = s.useCompat ∧
    vpSrc tok path (vpStep path s (VEvent.errorEv (some info))).1 = vpSrc tok path s := by
  have heq : vpStep path s (VEvent.errorEv (some info)) =
      (⟨VStatus.error, s.bufferPct, s.useCompat,
        "Codec \"" ++ info.codec ++ "\" not supported by browser. Install ffmpeg to enable transcoding.",
        true⟩, [VReq.probeVideoInfo path]) := by
    simp [vpStep, h1, h2, h3]
  exact ⟨heq, by rw [heq], by rw [heq]; simp [vpSrc]⟩

/-- Witness for C5 on a HEVC video probed right after the first error. -/
theorem videoTranscoderUnavailable_witness :
    vpStep "v.mkv" vpInit (VEvent.errorEv (some ⟨"hevc", true, false⟩)) =
      (⟨VStatus.error, 0, false,
        "Codec \"hevc\" not supported by browser. Install ffmpeg to enable transcoding.",
        true⟩, [VReq.probeVideoInfo "v.mkv"]) :=
  (videoTranscoderUnavailable "t" "v.mkv" vpInit ⟨"hevc", true, false⟩ rfl rfl rfl).1

/-- Claim C6: every media URL the client builds embeds the session token as
the `token` query parameter; the spec-modelled media authentication accepts
the query token exactly as it accepts the header credential; and the
client's bulk-download call instead carries the token only in the
`Authorization` header, on a URL with no query string at all. -/
theorem mediaTokenInQuery (tok p bodyJson : String) (valid : String → Bool) :
    previewUrl tok p = "/api/files/preview?path=" ++ encodeURIComponent p ++ "&token=" ++ tok ∧
    previewCompatUrl tok p =
      "/api/files/preview?path=" ++ encodeURIComponent p ++ "&compat=1&token=" ++ tok ∧
    thumbnailUrl tok p = "/api/files/thumbnail?path=" ++ encodeURIComponent p ++ "&token=" ++ tok ∧
    downloadUrl tok p = "/api/files/download?path=" ++ encodeURIComponent p ++ "&token=" ++ tok ∧
    mediaAuth none (some tok) valid = valid tok ∧
    mediaAuth (some tok) none valid = valid tok ∧
    (bulkDownloadRequest tok bodyJson).headers =
      [("Authorization", "Bearer " ++ tok), ("Content-Type", "application/json")] ∧
    (bulkDownloadRequest tok bodyJson).url = "/api/files/bulk-download" ∧
    (bulkDownloadRequest tok bodyJson).url.data.contains '?' = false :=
  ⟨rfl, rfl, rfl, rfl, rfl, rfl, rfl, rfl, rfl⟩

/-- Claim C9: a 401 from any call through `req` clears both localStorage
slots and reloads the page, and only then surfaces the `Unauthorized`
error to the caller; in particular a failed login clears a previously
stored session instead of leaving it intact. -/
theorem unauthorizedClearsSession (st : AuthStore) (resp : HttpResp)
    (h : resp.status = 401) :
    reqModel st resp =
      (⟨none, none⟩, [BrowserEffect.reload], Except.error ReqError.unauthorized) ∧
    ∀ cred, loginModel st resp cred =
      (⟨none, none⟩, [BrowserEffect.reload], Except.error ReqError.unauthorized) := by
  have h1 : reqModel st resp =
      (⟨none, none⟩, [BrowserEffect.reload], Except.error ReqError.unauthorized) := by
    simp [reqModel, h]
  exact ⟨h1, fun cred => by simp [loginModel, h1]⟩

/-- Witness for C9: a wrong-credentials login on a browser that still holds
an old session ends with both storage slots cleared. -/
theorem unauthorizedClearsSession_witness :
    reqModel ⟨some "oldtok", some "olduser"⟩ ⟨401, "Invalid credentials"⟩ =
      (⟨none, none⟩, [BrowserEffect.reload], Except.error ReqError.unauthorized) ∧
    loginModel ⟨some "oldtok", some "olduser"⟩ ⟨401, "Invalid credentials"⟩ ("x", "y") =
      (⟨none, none⟩, [BrowserEffect.reload], Except.error ReqError.unauthorized) :=
  ⟨(unauthorizedClearsSession ⟨some "oldtok", some "olduser"⟩ ⟨401, "Invalid credentials"⟩ rfl).1,
    (unauthorizedClearsSession ⟨some "oldtok", some "olduser"⟩ ⟨401, "Invalid credentials"⟩ rfl).2
      ("x", "y")⟩

/-- Claim C7: with the error flag set, a card or row renders an icon for
the file's type and never the thumbnail image; and flipping one card's
error flag changes no other card of the grid. -/
theorem thumbFallbackIsolated (tok : String) :
    (∀ f : FileEntry, (∀ src, cardThumbArea tok f true ≠ ThumbRender.thumbImg src) ∧
      (∀ src, rowThumbArea tok f true ≠ ThumbRender.thumbImg src)) ∧
    (∀ f : FileEntry, f.file_type = "image" →
      cardThumbArea tok f true = ThumbRender.typeIconOf "image" ∧
      rowThumbArea tok f true = ThumbRender.fileIconGeneric) ∧
    (∀ (files : List FileEntry) (errs : List Bool) (i j : ℕ), i ≠ j →
      (gridThumbs tok files (errs.set i true))[j]? = (gridThumbs tok files errs)[j]?) ∧
    (∀ (files : List FileEntry) (errs : List Bool) (i : ℕ),
      (gridThumbs tok files (errs.set i true)).length = (gridThumbs tok files errs).length) := by
  refine ⟨?_, ?_, ?_, ?_⟩
  · intro f
    refine ⟨fun src => ?_, fun src => ?_⟩
    · simp only [cardThumbArea, Bool.not_true, Bool.and_false]
      rw [if_neg (by simp)]
      split <;> simp
    · simp only [rowThumbArea, Bool.not_true, Bool.and_false]
      rw [if_neg (by simp)]
      split <;> simp
  · intro f hf
    constructor
    · simp [cardThumbArea, hf]
    · simp [rowThumbArea, hf]
  · intro files errs i j hij
    simp only [gridThumbs, List.getElem?_zipWith', List.getElem?_set_ne hij]
  · intro files errs i
    simp [gridThumbs, List.length_zipWith]

/-- Witness for C7: in a two-card grid, failing the first image's thumbnail
degrades that card to the image type icon and leaves the second card's
render unchanged. -/
theorem thumbFallbackIsolated_witness :
    cardThumbArea "t" ⟨"a.jpg", "/a.jpg", "image", some 5, "d"⟩ true =
      ThumbRender.typeIconOf "image" ∧
    (gridThumbs "t"
        [⟨"a.jpg", "/a.jpg", "image", some 5, "d"⟩, ⟨"b.mp4", "/b.mp4", "video", none, "d"⟩]
        ([false, false].set 0 true))[1]? =
      (gridThumbs "t"
        [⟨"a.jpg", "/a.jpg", "image", some 5, "d"⟩, ⟨"b.mp4", "/b.mp4", "video", none, "d"⟩]
        [false, false])[1]? :=
  ⟨((thumbFallbackIsolated "t").2.1 ⟨"a.jpg", "/a.jpg", "image", some 5, "d"⟩ rfl).1,
    (thumbFallbackIsolated "t").2.2.1
      [⟨"a.jpg", "/a.jpg", "image", some 5, "d"⟩, ⟨"b.mp4", "/b.mp4", "video", none, "d"⟩]
      [false, false] 0 1 (by decide)⟩

/-- Projecting the folder half back out of a rendered listing. -/
theorem filterMap_folderE_map (l : List FolderEntry) :
    (l.map RenderedEntry.folderE).filterMap
      (fun e => match e with
        | RenderedEntry.folderE f => some f
        | RenderedEntry.fileE _ => none) = l := by
  induction l with
  | nil => rfl
  | cons a t ih => simp [ih]

/-- File entries contribute nothing to the folder projection. -/
theorem filterMap_folderE_files (l : List FileEntry) :
    (l.map RenderedEntry.fileE).filterMap
      (fun e => match e with
        | RenderedEntry.folderE f => some f
        | RenderedEntry.fileE _ => none) = [] := by
  induction l with
  | nil => rfl
  | cons a t ih => simp [ih]

/-- Projecting the file half back out of a rendered listing. -/
theorem filterMap_fileE_map (l : List FileEntry) :
    (l.map RenderedEntry.fileE).filterMap
      (fun e => match e with
        | RenderedEntry.fileE f => some f
        | RenderedEntry.folderE _ => none) = l := by
  induction l with
  | nil => rfl
  | cons a t ih => simp [ih]

/-- Folder entries contribute nothing to the file projection. -/
theorem filterMap_fileE_folders (l : List FolderEntry) :
    (l.map RenderedEntry.folderE).filterMap
      (fun e => match e with
        | RenderedEntry.fileE f => some f
        | RenderedEntry.folderE _ => none) = [] := by
  induction l with
  | nil => rfl
  | cons a t ih => simp [ih]

/-- Claim C8: the listing keeps folders and files as separate collections,
and the dashboard renders every folder entry strictly before every file
entry while preserving, inside each group, exactly the order of the
response. -/
theorem foldersBeforeFiles (resp : FilesResponse) :
    (∀ (i j : ℕ) (fo : FolderEntry) (fi : FileEntry),
      (dashboardEntries resp)[i]? = some (RenderedEntry.folderE fo) →
      (dashboardEntries resp)[j]? = some (RenderedEntry.fileE fi) → i < j) ∧
    (dashboardEntries resp).filterMap
      (fun e => match e with
        | RenderedEntry.folderE f => some f
        | RenderedEntry.fileE _ => none) = resp.folders ∧
    (dashboardEntries resp).filterMap
      (fun e => match e with
        | RenderedEntry.fileE f => some f
        | RenderedEntry.folderE _ => none) = resp.files := by
  refine ⟨?_, ?_, ?_⟩
  · intro i j fo fi hi hj
    have hilt : i < resp.folders.length := by
      by_contra hge
      push_neg at hge
      rw [dashboardEntries, List.getElem?_append_right (by simpa using hge),
        List.getElem?_map] at hi
      rcases Option.map_eq_some'.mp hi with ⟨x, -, hx⟩
      exact RenderedEntry.noConfusion hx
    have hjge : resp.folders.length ≤ j := by
      by_contra hlt
      push_neg at hlt
      rw [dashboardEntries, List.getElem?_append_left (by simpa using hlt),
        List.getElem?_map] at hj
      rcases Option.map_eq_some'.mp hj with ⟨x, -, hx⟩
      exact RenderedEntry.noConfusion hx
    omega
  · rw [dashboardEntries, List.filterMap_append, filterMap_folderE_map,
      filterMap_folderE_files, List.append_nil]
  · rw [dashboardEntries, List.filterMap_append, filterMap_fileE_map,
      filterMap_fileE_folders, List.nil_append]

/-- Witness for C8 on a one-folder, one-file listing. -/
theorem foldersBeforeFiles_witness :
    dashboardEntries ⟨[⟨"sub", "/sub", 2, "d"⟩], [⟨"a.jpg", "/a.jpg", "image", some 3, "d"⟩]⟩ =
      [RenderedEntry.folderE ⟨"sub", "/sub", 2, "d"⟩,
        RenderedEntry.fileE ⟨"a.jpg", "/a.jpg", "image", some 3, "d"⟩] ∧ (0 : ℕ) < 1 :=
  ⟨by decide,
    (foldersBeforeFiles ⟨[⟨"sub", "/sub", 2, "d"⟩], [⟨"a.jpg", "/a.jpg", "image", some 3, "d"⟩]⟩).1
      0 1 ⟨"sub", "/sub", 2, "d"⟩ ⟨"a.jpg", "/a.jpg", "image", some 3, "d"⟩
      (by decide) (by decide)⟩

/-- Claim C1: whenever the canonical resolution of a virtual path (after
`..` and symlink resolution) is not a descendant of MediaRoot, every
path-consuming endpoint — listing, stats, preview, thumbnail, download and
bulk archive — answers with the constant `Forbidden` response and never
with any file contents; the two error messages are fixed constants
carrying no filesystem path. -/
theorem pathContainment (gen : List ℕ → List ℕ) (fs : MediaFS) (vp : String)
    (c : AbsPath) (rng : Option String)
    (hres : canonicalize fs (fs.root ++ virtualSegments vp) = some c)
    (hout : fs.root.isPrefixOf c = false) :
    listEndpoint fs vp = MediaResp.err forbiddenResp ∧
    statsEndpoint fs vp = MediaResp.err forbiddenResp ∧
    previewEndpoint fs vp rng = MediaResp.err forbiddenResp ∧
    thumbnailEndpoint gen fs vp = MediaResp.err forbiddenResp ∧
    downloadEndpoint fs vp = MediaResp.err forbiddenResp ∧
    archiveEndpoint fs [vp] = MediaResp.err forbiddenResp ∧
    forbiddenResp.msg = "Access denied" ∧ notFoundResp.msg = "Not found" := by
  have hr : resolvePath fs vp = Except.error forbiddenResp := by
    simp [resolvePath, hres, hout]
  refine ⟨?_, ?_, ?_, ?_, ?_, ?_, rfl, rfl⟩
  · simp [listEndpoint, hr]
  · simp [statsEndpoint, hr]
  · simp [previewEndpoint, hr]
  · simp [thumbnailEndpoint, hr]
  · simp [downloadEndpoint, hr]
  · simp [archiveEndpoint, List.mapM, List.mapM.loop, hr, Except.bind]

/-- Witness for C1 on the sample filesystem: `../etc/passwd` resolves to
`/etc/passwd`, outside the root `/media`, and every endpoint refuses. -/
theorem pathContainment_witness :
    canonicalize sampleFS (sampleFS.root ++ virtualSegments "../etc/passwd") =
      some ["etc", "passwd"] ∧
    sampleFS.root.isPrefixOf ["etc", "passwd"] = false ∧
    listEndpoint sampleFS "../etc/passwd" = MediaResp.err forbiddenResp ∧
    downloadEndpoint sampleFS "../etc/passwd" = MediaResp.err forbiddenResp ∧
    archiveEndpoint sampleFS ["../etc/passwd"] = MediaResp.err forbiddenResp :=
  have h := pathContainment (fun bs => bs) sampleFS "../etc/passwd" ["etc", "passwd"] none
    (by decide) (by decide)
  ⟨by decide, by decide, h.1, h.2.2.2.2.1, h.2.2.2.2.2.1⟩

/-- Claim C2: a request whose `Range` header parses as `bytes=N-`, with
`N < fileSize`, yields `206 Partial Content` whose body is exactly the
last `fileSize - N` bytes of the file, with `Content-Range: bytes
N-(fileSize-1)/fileSize`; omitting the header yields the whole file with
`Content-Length: fileSize`. -/
theorem rangeStreaming (content : List ℕ) (N : ℕ) (hdr : String)
    (hp : parseRangeHeader hdr = some (N, none)) (hN : N < content.length) :
    streamPreview content (some hdr) =
      ⟨206, some (content.length - N), some (N, content.length - 1, content.length),
        content.drop N⟩ ∧
    (content.drop N).length = content.length - N ∧
    streamPreview content none = ⟨200, some content.length, none, content⟩ := by
  refine ⟨?_, List.length_drop .., rfl⟩
  have h1 : content.length - 1 + 1 - N = content.length - N := by omega
  simp only [streamPreview, hp, Option.getD_none, min_self]
  rw [if_neg (by omega), h1]
  have h2 : (content.drop N).take (content.length - N) = content.drop N := by
    rw [← List.length_drop, List.take_length]
  rw [h2]

/-- Witness for C2: `Range: bytes=2-` on a six-byte file returns the last
four bytes. -/
theorem rangeStreaming_witness :
    parseRangeHeader "bytes=2-" = some (2, none) ∧
    streamPreview [10, 20, 30, 40, 50, 60] (some "bytes=2-") =
      ⟨206, some 4, some (2, 5, 6), [30, 40, 50, 60]⟩ :=
  ⟨by decide,
    (rangeStreaming [10, 20, 30, 40, 50, 60] 2 "bytes=2-" (by decide) (by decide)).1⟩

/-- Table update at the updated key. -/
theorem updTable_eq {α : Type} (f : ℕ → Option α) (k : ℕ) (v : Option α) :
    updTable f k v k = v := by
  simp [updTable]

/-- Table update at any other key. -/
theorem updTable_ne {α : Type} (f : ℕ → Option α) (k k' : ℕ) (v : Option α)
    (h : k' ≠ k) : updTable f k v k' = f k' := by
  simp [updTable, h]

/-- Generation counts add over event concatenation. -/
theorem genCount_append (k : ℕ) (l l' : List CoEv) :
    genCount k (l ++ l') = genCount k l + genCount k l' := by
  simp [genCount, List.filter_append]

/-- Delivery events contribute no generation starts. -/
theorem genCount_recvMap (k k' : ℕ) (res : ℕ) (ws : List ℕ) :
    genCount k (ws.map (fun r => CoEv.recv r k' res)) = 0 := by
  induction ws with
  | nil => rfl
  | cons w t ih => simp [genCount]

/-- A single delivery event contributes no generation start. -/
theorem genCount_recv_single (k k' r res : ℕ) :
    genCount k [CoEv.recv r k' res] = 0 := by
  simp [genCount]

/-- A single generation-start event counts one for its own key. -/
theorem genCount_genStart_single (k k' : ℕ) :
    genCount k [CoEv.genStart k'] = if k' == k then 1 else 0 := by
  by_cases h : k' == k <;> simp [genCount, h]

/-- Requests-seen after appending one action. -/
theorem hasRequestFor_append_one (k : ℕ) (acts : List CoAct) (a : CoAct) :
    hasRequestFor k (acts ++ [a]) =
      (hasRequestFor k acts ||
        (match a with
          | CoAct.request _ k' => k' == k
          | _ => false)) := by
  simp [hasRequestFor, List.any_append]

/-- The coalescing invariant is preserved by every atomic step. -/
theorem coInv_step (s : CoState) (evs : List CoEv) (acts : List CoAct) (a : CoAct)
    (h : CoInv s evs acts) :
    CoInv (coStep s a).1 (evs ++ (coStep s a).2) (acts ++ [a]) := by
  obtain ⟨hA, hB, hC, hD⟩ := h
  cases a with
  | request r k =>
    cases hc : s.cache k with
    | some res =>
      have hstep : coStep s (CoAct.request r k) = (s, [CoEv.recv r k res]) := by
        simp [coStep, hc]
      rw [hstep]
      unfold CoInv
      dsimp only
      refine ⟨?_, hB, ?_, ?_⟩
      · intro k' r' res' hmem
        rcases List.mem_append.mp hmem with hm | hm
        · exact hA k' r' res' hm
        · have he := List.mem_singleton.mp hm
          injection he with h1 h2 h3
          subst h1; subst h2; subst h3
          exact hc
      · intro k'
        rw [genCount_append, genCount_recv_single, Nat.add_zero]
        exact hC k'
      · intro k'
        rw [hasRequestFor_append_one]
        dsimp only
        by_cases hk : k = k'
        · subst hk
          simp [hc]
        · simp only [beq_eq_false_iff_ne.mpr hk, Bool.or_false]
          exact hD k'
    | none =>
      cases hi : s.inflight k with
      | some ws =>
        have hstep : coStep s (CoAct.request r k) =
            (⟨s.cache, updTable s.inflight k (some (ws ++ [r]))⟩, []) := by
          simp [coStep, hc, hi]
        rw [hstep]
        unfold CoInv
        dsimp only
        refine ⟨?_, ?_, ?_, ?_⟩
        · intro k' r' res' hmem
          rw [List.append_nil] at hmem
          exact hA k' r' res' hmem
        · intro k'
          by_cases hk : k' = k
          · subst hk
            exact Or.inl hc
          · rw [updTable_ne _ _ _ _ hk]
            exact hB k'
        · intro k'
          rw [List.append_nil]
          by_cases hk : k' = k
          · subst hk
            rw [updTable_eq]
            have hx := hC k'
            rw [hi] at hx
            simpa using hx
          · rw [updTable_ne _ _ _ _ hk]
            exact hC k'
        · intro k'
          rw [hasRequestFor_append_one]
          dsimp only
          by_cases hk : k = k'
          · subst hk
            simp [updTable_eq, hi, hD k, hc]
          · have hk' : k' ≠ k := fun he => hk he.symm
            simp only [beq_eq_false_iff_ne.mpr hk, Bool.or_false, updTable_ne _ _ _ _ hk']
            exact hD k'
      | none =>
        have hstep : coStep s (CoAct.request r k) =
            (⟨s.cache, updTable s.inflight k (some [r])⟩, [CoEv.genStart k]) := by
          simp [coStep, hc, hi]
        rw [hstep]
        unfold CoInv
        dsimp only
        refine ⟨?_, ?_, ?_, ?_⟩
        · intro k' r' res' hmem
          rcases List.mem_append.mp hmem with hm | hm
          · exact hA k' r' res' hm
          · exact absurd (List.mem_singleton.mp hm) (fun he => CoEv.noConfusion he)
        · intro k'
          by_cases hk : k' = k
          · subst hk
            exact Or.inl hc
          · rw [updTable_ne _ _ _ _ hk]
            exact hB k'
        · intro k'
          rw [genCount_append, genCount_genStart_single]
          by_cases hk : k = k'
          · subst hk
            have hx := hC k
            rw [hc, hi] at hx
            simp only [Option.isSome_none, Bool.or_self, Bool.false_eq_true, if_false] at hx
            rw [hx, updTable_eq]
            simp
          · have hk' : k' ≠ k := fun he => hk he.symm
            rw [updTable_ne _ _ _ _ hk']
            simp only [beq_eq_false_iff_ne.mpr hk, if_false, Nat.add_zero]
            exact hC k'
        · intro k'
          rw [hasRequestFor_append_one]
          dsimp only
          by_cases hk : k = k'
          · subst hk
            simp [updTable_eq]
          · have hk' : k' ≠ k := fun he => hk he.symm
            simp only [beq_eq_false_iff_ne.mpr hk, Bool.or_false, updTable_ne _ _ _ _ hk']
            exact hD k'
  | complete k res =>
    cases hi : s.inflight k with
    | none =>
      have hstep : coStep s (CoAct.complete k res) = (s, []) := by
        simp [coStep, hi]
      rw [hstep]
      unfold CoInv
      dsimp only
      refine ⟨?_, hB, ?_, ?_⟩
      · intro k' r' res' hmem
        rw [List.append_nil] at hmem
        exact hA k' r' res' hmem
      · intro k'
        rw [List.append_nil]
        exact hC k'
      · intro k'
        rw [hasRequestFor_append_one]
        dsimp only
        rw [Bool.or_false]
        exact hD k'
    | some ws =>
      have hcn : s.cache k = none := by
        rcases hB k with hx | hx
        · exact hx
        · rw [hi] at hx
          exact absurd hx (by simp)
      have hstep : coStep s (CoAct.complete k res) =
          (⟨updTable s.cache k (some res), updTable s.inflight k none⟩,
            ws.map (fun r => CoEv.recv r k res)) := by
        simp [coStep, hi]
      rw [hstep]
      unfold CoInv
      dsimp only
      refine ⟨?_, ?_, ?_, ?_⟩
      · intro k' r' res' hmem
        rcases List.mem_append.mp hmem with hm | hm
        · have hold := hA k' r' res' hm
          by_cases hk : k' = k
          · subst hk
            rw [hcn] at hold
            exact absurd hold (by simp)
          · rw [updTable_ne _ _ _ _ hk]
            exact hold
        · rcases List.mem_map.mp hm with ⟨rr, -, he⟩
          injection he with h1 h2 h3
          subst h2; subst h3
          rw [updTable_eq]
      · intro k'
        by_cases hk : k' = k
        · subst hk
          exact Or.inr (updTable_eq _ _ _)
        · rw [updTable_ne _ _ _ _ hk, updTable_ne _ _ _ _ hk]
          exact hB k'
      · intro k'
        rw [genCount_append, genCount_recvMap, Nat.add_zero]
        by_cases hk : k' = k
        · subst hk
          have hx := hC k'
          rw [hi] at hx
          simp only [Option.isSome_some, Bool.or_true, if_true] at hx
          rw [hx, updTable_eq]
          simp
        · rw [updTable_ne _ _ _ _ hk, updTable_ne _ _ _ _ hk]
          exact hC k'
      · intro k'
        rw [hasRequestFor_append_one]
        dsimp only
        rw [Bool.or_false]
        by_cases hk : k' = k
        · subst hk
          have hx := hD k'
          rw [hi] at hx
          simp only [Option.isSome_some, Bool.or_true] at hx
          rw [hx, updTable_eq]
          simp
        · rw [updTable_ne _ _ _ _ hk, updTable_ne _ _ _ _ hk]
          exact hD k'

/-- The coalescing invariant holds along any run. -/
theorem coInv_run (s : CoState) (evs : List CoEv) (pre acts : List CoAct)
    (h : CoInv s evs pre) :
    CoInv (coRun s acts).1 (evs ++ (coRun s acts).2) (pre ++ acts) := by
  induction acts generalizing s evs pre with
  | nil => simpa [coRun] using h
  | cons a rest ih =>
    have h2 := ih (coStep s a).1 (evs ++ (coStep s a).2) (pre ++ [a])
      (coInv_step s evs pre a h)
    simp only [coRun]
    rw [← List.append_assoc]
    have hacts : (pre ++ [a]) ++ rest = pre ++ a :: rest := by simp
    rw [hacts] at h2
    exact h2

/-- The invariant holds at the empty initial state. -/
theorem coInv_init : CoInv coInit [] [] := by
  refine ⟨?_, ?_, ?_, ?_⟩
  · intro k r res hmem
    exact absurd hmem (List.not_mem_nil _)
  · intro k
    exact Or.inl rfl
  · intro k
    simp [genCount, coInit]
  · intro k
    simp [hasRequestFor, coInit]

/-- Claim C3: over any interleaving of requests and generation completions
starting from an empty cache, a generation is started exactly once for each
key some request asked for — concurrent requests for a not-yet-cached key
coalesce instead of starting further generations — and every requester of a
key receives the same result. -/
theorem thumbnailCoalescing (acts : List CoAct) (k : ℕ) :
    genCount k (coRun coInit acts).2 = (if hasRequestFor k acts then 1 else 0) ∧
    ∀ r₁ res₁ r₂ res₂,
      CoEv.recv r₁ k res₁ ∈ (coRun coInit acts).2 →
      CoEv.recv r₂ k res₂ ∈ (coRun coInit acts).2 → res₁ = res₂ := by
  have h := coInv_run coInit [] [] acts coInv_init
  simp only [List.nil_append] at h
  obtain ⟨hA, hB, hC, hD⟩ := h
  constructor
  · rw [hC k, hD k]
  · intro r₁ res₁ r₂ res₂ h1 h2
    have e1 := hA k r₁ res₁ h1
    have e2 := hA k r₂ res₂ h2
    rw [e1] at e2
    exact Option.some.inj e2

/-- Witness for C3: two concurrent requesters and one late requester of key
5 across one full generation — a single generation start, with requesters 1
and 3 receiving the same bytes. -/
theorem thumbnailCoalescing_witness :
    genCount 5 (coRun coInit
      [CoAct.request 1 5, CoAct.request 2 5, CoAct.complete 5 9, CoAct.request 3 5]).2 = 1 ∧
    (9 : ℕ) = 9 := by
  have h := thumbnailCoalescing
    [CoAct.request 1 5, CoAct.request 2 5, CoAct.complete 5 9, CoAct.request 3 5] 5
  refine ⟨?_, h.2 1 9 3 9 (by decide) (by decide)⟩
  rw [h.1]
  decide
